import Mathlib

/-!
Verification of the `vortice` node (src/src/main.rs): a single-process
Maelstrom-style node that reads JSON envelopes from stdin, dispatches on the
payload tag, and writes reply envelopes to stdout.

The embedding below mirrors the Rust source shallowly:
* `Payload`, `Body`, `Msg` embed the serde data model (lines 9-58);
* `Node` embeds the node state (lines 60-63), field `id` being the outbound
  message counter and `messages` the accumulated broadcast values;
* `Node.step` embeds `Node::step` (lines 66-183); writing a reply to the
  locked stdout becomes returning a list of zero or one messages, and the
  fresh `ulid::Ulid::new()` draw of the Generate arm becomes an explicit
  128-bit natural-number parameter `u` (its timestamp+randomness value);
* `ulidToString` embeds the ulid crate's canonical 26-character
  Crockford-base32 rendering used by `id_.to_string()` (line 113);
* `mainLoop` embeds the read-parse-step loop of `main` (lines 186-206),
  with the stream of parse results made explicit;
* `deserializePayloadTag` embeds the tag dispatch of the serde-derived
  deserializer declared by `#[serde(tag = "type", rename_all = "snake_case")]`
  on `Payload` (lines 27-29): exactly the twelve snake_case variant names
  are accepted, any other tag is a deserialization error.
-/

/-- Embeds `enum Payload` (src/src/main.rs lines 27-58). The Rust
`HashMap<String, Vec<String>>` of the Topology variant is embedded as an
association list; `Node::step` never inspects it. -/
inductive Payload where
  | Echo (echo : String)
  | EchoOk (echo : String)
  | Init (node_id : String) (node_ids : List String)
  | InitOk
  | Generate
  | GenerateOk (id : String)
  | Broadcast (message : Nat)
  | BroadcastOk
  | Read
  | ReadOk (messages : List Nat)
  | Topology (topology : List (String × List String))
  | TopologyOk
deriving DecidableEq, Repr

/-- Embeds `struct Body` (lines 18-25): `id` is the field serialized as
`msg_id`; both ids are optional. -/
structure Body where
  id : Option Nat
  in_reply_to : Option Nat
  payload : Payload
deriving DecidableEq, Repr

/-- Embeds `struct Msg` (lines 9-16): `dst` is the field serialized as
`dest`. -/
structure Msg where
  src : String
  dst : String
  body : Body
deriving DecidableEq, Repr

/-- Embeds `struct Node` (lines 60-63): `id` is the next outbound `msg_id`,
`messages` the broadcast accumulator. -/
structure Node where
  id : Nat
  messages : List Nat
deriving DecidableEq, Repr

/-- The Crockford base32 alphabet used by the ulid crate's rendering. -/
def crockford : List Char :=
  ['0', '1', '2', '3', '4', '5', '6', '7', '8', '9',
   'A', 'B', 'C', 'D', 'E', 'F', 'G', 'H', 'J', 'K',
   'M', 'N', 'P', 'Q', 'R', 'S', 'T', 'V', 'W', 'X', 'Y', 'Z']

/-- Embeds `ulid::Ulid::to_string` (called at line 113): the 128-bit value
`u` is rendered as 26 Crockford-base32 characters, most significant digit
first (26 digits of base 32 cover 130 bits; a `u128` value leaves the top
character in `0`-`7`). -/
def ulidToString (u : Nat) : String :=
  String.mk ((List.range 26).map (fun i => crockford.getD (u / 32 ^ (25 - i) % 32) 'Z'))

/-- Embeds `Node::step` (lines 66-183). The Rust method mutates `self` and
writes zero or one reply to stdout; here it returns the updated node and the
list of written replies. `u` is the value drawn by `ulid::Ulid::new()` in the
Generate arm (line 104); the other arms ignore it. The final Rust arm
`_ => {}` covers exactly the remaining variants EchoOk, GenerateOk,
BroadcastOk, ReadOk and TopologyOk. -/
def Node.step (n : Node) (u : Nat) (input : Msg) : Node × List Msg :=
  match input.body.payload with
  | Payload.Init _ _ =>
      (⟨n.id + 1, n.messages⟩,
       [⟨input.dst, input.src, ⟨some n.id, input.body.id, Payload.InitOk⟩⟩])
  | Payload.InitOk => (n, [])
  | Payload.Echo echo =>
      (⟨n.id + 1, n.messages⟩,
       [⟨input.dst, input.src, ⟨some n.id, input.body.id, Payload.EchoOk echo⟩⟩])
  | Payload.Generate =>
      (⟨n.id + 1, n.messages⟩,
       [⟨input.dst, input.src,
         ⟨some n.id, input.body.id, Payload.GenerateOk (ulidToString u)⟩⟩])
  | Payload.Broadcast message =>
      (⟨n.id + 1, n.messages ++ [message]⟩,
       [⟨input.dst, input.src, ⟨some n.id, input.body.id, Payload.BroadcastOk⟩⟩])
  | Payload.Read =>
      (⟨n.id + 1, n.messages⟩,
       [⟨input.dst, input.src,
         ⟨some n.id, input.body.id, Payload.ReadOk n.messages⟩⟩])
  | Payload.Topology _ =>
      (⟨n.id + 1, n.messages⟩,
       [⟨input.dst, input.src, ⟨some n.id, input.body.id, Payload.TopologyOk⟩⟩])
  | _ => (n, [])

/-- Embeds the `Node` initialization in `main` (lines 192-195):
`id = 0`, `messages = Vec::new()`. -/
def initNode : Node := ⟨0, []⟩

/-- Runs `Node::step` over a sequence of inputs, each paired with the ulid
value its Generate arm would draw; replies accumulate in emission order,
embedding the serial stdin-to-stdout loop of `main` (lines 197-203). -/
def Node.run : Node → List (Nat × Msg) → Node × List Msg
  | n, [] => (n, [])
  | n, (u, m) :: rest =>
      let s := n.step u m
      let r := Node.run s.1 rest
      (r.1, s.2 ++ r.2)

/-- The twelve payload tags accepted by the serde-derived deserializer for
`Payload` under `#[serde(tag = "type", rename_all = "snake_case")]`
(lines 27-58), in declaration order. -/
def payloadTypeNames : List String :=
  ["echo", "echo_ok", "init", "init_ok", "generate", "generate_ok",
   "broadcast", "broadcast_ok", "read", "read_ok", "topology", "topology_ok"]

/-- Embeds the tag dispatch of the serde-derived `Deserialize` impl for
`Payload`: an internally-tagged enum accepts exactly its declared variant
tags and fails with an unknown-variant error on any other tag. -/
def deserializePayloadTag (t : String) : Except String Unit :=
  if t ∈ payloadTypeNames then Except.ok ()
  else Except.error ("unknown variant " ++ t)

/-- Embeds the message loop of `main` (lines 197-203) over an explicit
stream of per-line parse results, as produced by
`serde_json::Deserializer::from_reader(stdin).into_iter::<Msg>()`: the first
`Err` line makes `main` return the error (non-zero process exit with the
diagnostic); otherwise each parsed message is fed to `step` and the replies
are written in order. -/
def mainLoop (n : Node) : List (Except String (Nat × Msg)) → List Msg × Except String Node
  | [] => ([], Except.ok n)
  | Except.error e :: _ => ([], Except.error e)
  | Except.ok (u, m) :: rest =>
      let s := n.step u m
      let r := mainLoop s.1 rest
      (s.2 ++ r.1, r.2)

/-- True exactly on the six payload variants the node receives-and-ignores:
the `InitOk` arm (line 85) and the variants covered by the catch-all arm
(line 179). -/
def isOkPayload : Payload → Bool
  | Payload.InitOk => true
  | Payload.EchoOk _ => true
  | Payload.GenerateOk _ => true
  | Payload.BroadcastOk => true
  | Payload.ReadOk _ => true
  | Payload.TopologyOk => true
  | _ => false

/-- The id strings carried by the `generate_ok` replies of an output trace,
in emission order. -/
def generatedIds (outs : List Msg) : List String :=
  outs.filterMap (fun m =>
    match m.body.payload with
    | Payload.GenerateOk s => some s
    | _ => none)

/-- True exactly on the `Generate` request payload. -/
def isGenerate : Payload → Bool
  | Payload.Generate => true
  | _ => false

/-- The ulid values drawn by the Generate steps of an input trace, in
arrival order. -/
def generateDraws (ms : List (Nat × Msg)) : List Nat :=
  (ms.filter (fun p => isGenerate p.2.body.payload)).map Prod.fst

/-- The `message` values of the broadcast requests of an input trace, in
arrival order. -/
def broadcastValues (ms : List Msg) : List Nat :=
  ms.filterMap (fun m =>
    match m.body.payload with
    | Payload.Broadcast v => some v
    | _ => none)

/-- Sample echo request (spec scenario S2). -/
def echoMsg : Msg := ⟨"c1", "n1", ⟨some 7, none, Payload.Echo "hi"⟩⟩

/-- Sample generate request. -/
def genMsg : Msg := ⟨"c1", "n1", ⟨some 5, none, Payload.Generate⟩⟩

/-- Sample broadcast request carrying value `v`. -/
def broadcastMsg (v : Nat) : Msg := ⟨"c1", "n1", ⟨some 2, none, Payload.Broadcast v⟩⟩

/-- Sample read request. -/
def readMsg : Msg := ⟨"c1", "n1", ⟨some 4, none, Payload.Read⟩⟩

/-- Sample topology request (spec scenario S5). -/
def topoMsg : Msg := ⟨"c1", "n1", ⟨some 3, none, Payload.Topology [("n1", ["n2"])]⟩⟩

/-- Sample `echo_ok` input (spec scenario S6). -/
def echoOkMsg : Msg := ⟨"c1", "n1", ⟨none, some 1, Payload.EchoOk "x"⟩⟩

/-- C2: every reply emitted by `Node::step` carries `in_reply_to` equal to
the triggering request's `msg_id` (`input.body.id`), the two being equal as
optional values — in particular a request without `msg_id` yields a reply
whose `in_reply_to` is likewise absent (serialized as null). -/
theorem reply_in_reply_to_eq_request_msg_id (n : Node) (u : Nat) (input out : Msg)
    (h : out ∈ (n.step u input).2) : out.body.in_reply_to = input.body.id := by
  rcases input with ⟨src, dst, ⟨mid, irt, p⟩⟩
  cases p <;> simp_all [Node.step]

/-- Witness for C2: the echo reply to `echoMsg` carries
`in_reply_to = some 7`. -/
theorem reply_in_reply_to_eq_request_msg_id_witness :
    (⟨"n1", "c1", ⟨some 0, some 7, Payload.EchoOk "hi"⟩⟩ : Msg).body.in_reply_to =
      echoMsg.body.id :=
  reply_in_reply_to_eq_request_msg_id initNode 0 echoMsg _ (by decide)

/-- C5: an input whose payload is `init_ok`, `echo_ok`, `generate_ok`,
`broadcast_ok`, `read_ok` or `topology_ok` produces no output and leaves the
whole node state — both the `messages` sequence and the counter — unchanged. -/
theorem ok_inputs_inert (n : Node) (u : Nat) (m : Msg)
    (h : isOkPayload m.body.payload = true) : n.step u m = (n, []) := by
  rcases m with ⟨src, dst, ⟨mid, irt, p⟩⟩
  cases p <;> simp_all [Node.step, isOkPayload]

/-- Witness for C5: feeding the sample `echo_ok` input to the initial node
emits nothing and changes nothing. -/
theorem ok_inputs_inert_witness : initNode.step 0 echoOkMsg = (initNode, []) :=
  ok_inputs_inert initNode 0 echoOkMsg (by decide)

/-- C7: a topology request, whatever its map, is answered `topology_ok`;
the `messages` sequence is unchanged and only the counter advances. -/
theorem topology_acknowledged (n : Node) (u : Nat) (m : Msg)
    (topo : List (String × List String)) (h : m.body.payload = Payload.Topology topo) :
    (n.step u m).1.messages = n.messages ∧ (n.step u m).1.id = n.id + 1 ∧
    (n.step u m).2 = [⟨m.dst, m.src, ⟨some n.id, m.body.id, Payload.TopologyOk⟩⟩] := by
  rcases m with ⟨src, dst, ⟨mid, irt, p⟩⟩
  cases p <;> simp_all [Node.step]

/-- Witness for C7: the sample topology request against the initial node. -/
theorem topology_acknowledged_witness :
    (initNode.step 0 topoMsg).1.messages = initNode.messages ∧
    (initNode.step 0 topoMsg).1.id = initNode.id + 1 ∧
    (initNode.step 0 topoMsg).2 =
      [⟨topoMsg.dst, topoMsg.src, ⟨some initNode.id, topoMsg.body.id, Payload.TopologyOk⟩⟩] :=
  topology_acknowledged initNode 0 topoMsg [("n1", ["n2"])] (by decide)

/-- C8: every emitted reply swaps the addresses: its `src` is the request's
`dest` and its `dest` is the request's `src`. -/
theorem reply_address_swap (n : Node) (u : Nat) (input out : Msg)
    (h : out ∈ (n.step u input).2) : out.src = input.dst ∧ out.dst = input.src := by
  rcases input with ⟨src, dst, ⟨mid, irt, p⟩⟩
  cases p <;> simp_all [Node.step]

/-- Witness for C8: the reply to `echoMsg` goes from "n1" back to "c1". -/
theorem reply_address_swap_witness :
    (⟨"n1", "c1", ⟨some 0, some 7, Payload.EchoOk "hi"⟩⟩ : Msg).src = echoMsg.dst ∧
    (⟨"n1", "c1", ⟨some 0, some 7, Payload.EchoOk "hi"⟩⟩ : Msg).dst = echoMsg.src :=
  reply_address_swap initNode 0 echoMsg _ (by decide)

/-- C9: an echo request carrying string `s` is answered by exactly one
`echo_ok` reply whose `echo` field is the same string `s`. -/
theorem echo_identity (n : Node) (u : Nat) (m : Msg) (s : String)
    (h : m.body.payload = Payload.Echo s) :
    (n.step u m).2 = [⟨m.dst, m.src, ⟨some n.id, m.body.id, Payload.EchoOk s⟩⟩] := by
  rcases m with ⟨src, dst, ⟨mid, irt, p⟩⟩
  cases p <;> simp_all [Node.step]

/-- Witness for C9: echoing "hi" returns "hi" (spec scenario S2). -/
theorem echo_identity_witness :
    (initNode.step 0 echoMsg).2 =
      [⟨echoMsg.dst, echoMsg.src, ⟨some initNode.id, echoMsg.body.id, Payload.EchoOk "hi"⟩⟩] :=
  echo_identity initNode 0 echoMsg "hi" (by decide)

/-- C10: the `messages` sequence is touched only by broadcast requests: a
broadcast with value `v` appends exactly `[v]` at the end, and any other
payload leaves the sequence exactly unchanged. -/
theorem messages_only_broadcast_appends (n : Node) (u : Nat) (m : Msg) :
    (∀ v, m.body.payload = Payload.Broadcast v →
      (n.step u m).1.messages = n.messages ++ [v]) ∧
    ((∀ v, m.body.payload ≠ Payload.Broadcast v) →
      (n.step u m).1.messages = n.messages) := by
  rcases m with ⟨src, dst, ⟨mid, irt, p⟩⟩
  cases p <;> simp_all [Node.step]

/-- Witness for C10: broadcasting 5 to the initial node appends exactly 5. -/
theorem messages_only_broadcast_appends_witness :
    (initNode.step 0 (broadcastMsg 5)).1.messages = initNode.messages ++ [5] :=
  (messages_only_broadcast_appends initNode 0 (broadcastMsg 5)).1 5 (by decide)

/-- Each single step advances the counter by exactly the number of replies
it emits (one for the seven replying arms, zero for the ignored ones). -/
lemma step_counter (n : Node) (u : Nat) (m : Msg) :
    (n.step u m).1.id = n.id + (n.step u m).2.length := by
  rcases m with ⟨src, dst, ⟨mid, irt, p⟩⟩
  cases p <;> simp [Node.step]

/-- The `msg_id`s of the replies of one step are consecutive, starting at
the incoming counter value. -/
lemma step_ids (n : Node) (u : Nat) (m : Msg) :
    (n.step u m).2.map (fun o => o.body.id) =
      (List.range' n.id (n.step u m).2.length).map some := by
  rcases m with ⟨src, dst, ⟨mid, irt, p⟩⟩
  cases p <;> simp [Node.step, List.range']

/-- Across a run, the counter advances by exactly the number of emitted
replies. -/
lemma run_counter (n : Node) (ms : List (Nat × Msg)) :
    (Node.run n ms).1.id = n.id + (Node.run n ms).2.length := by
  induction ms generalizing n with
  | nil => simp [Node.run]
  | cons p rest ih =>
    rcases p with ⟨u, m⟩
    simp only [Node.run, List.length_append]
    rw [ih, step_counter]
    omega

/-- Across a run, the emitted replies carry consecutive `msg_id`s starting
at the incoming counter value. -/
lemma run_ids (n : Node) (ms : List (Nat × Msg)) :
    (Node.run n ms).2.map (fun o => o.body.id) =
      (List.range' n.id (Node.run n ms).2.length).map some := by
  induction ms generalizing n with
  | nil => simp [Node.run]
  | cons p rest ih =>
    rcases p with ⟨u, m⟩
    simp only [Node.run, List.map_append, List.length_append]
    rw [step_ids, ih, step_counter]
    have hr := List.range'_append n.id ((n.step u m).2.length)
      ((Node.run (n.step u m).1 rest).2.length) 1
    simp only [one_mul] at hr
    rw [← List.map_append, hr, Nat.add_comm ((Node.run (n.step u m).1 rest).2.length)]

/-- C4: starting from the initial node, the `msg_id`s of the emitted replies
are exactly `some 0, some 1, some 2, …` in emission order — no gaps, no
repeats — the final counter equals the number of emitted replies, and each
individual step advances the counter by exactly the number of replies it
emits (so `*_ok` inputs, which emit none, do not advance it). -/
theorem reply_msg_ids_sequential (ms : List (Nat × Msg)) :
    (Node.run initNode ms).2.map (fun o => o.body.id) =
      (List.range (Node.run initNode ms).2.length).map some ∧
    (Node.run initNode ms).1.id = (Node.run initNode ms).2.length ∧
    ∀ (n : Node) (u : Nat) (m : Msg), (n.step u m).1.id = n.id + (n.step u m).2.length := by
  refine ⟨?_, ?_, step_counter⟩
  · rw [List.range_eq_range']
    simpa [initNode] using run_ids initNode ms
  · simpa [initNode] using run_counter initNode ms

/-- The accumulated `messages` after a run are the initial ones followed by
the broadcast values of the processed inputs, in arrival order, duplicates
preserved. -/
lemma run_messages (n : Node) (ms : List (Nat × Msg)) :
    (Node.run n ms).1.messages = n.messages ++ broadcastValues (ms.map Prod.snd) := by
  induction ms generalizing n with
  | nil => simp [Node.run, broadcastValues]
  | cons p rest ih =>
    rcases p with ⟨u, m⟩
    rcases m with ⟨src, dst, ⟨mid, irt, pl⟩⟩
    cases pl <;> simp_all [Node.run, Node.step, broadcastValues]

/-- C3: after any run from the initial node, a read request is answered by
exactly one `read_ok` whose `messages` list is the broadcast values of the
processed inputs in arrival order (duplicates preserved); when the run held
no broadcast request that list is empty. -/
theorem broadcast_then_read (ms : List (Nat × Msg)) (u : Nat) (m : Msg)
    (h : m.body.payload = Payload.Read) :
    ((Node.run initNode ms).1.step u m).2 =
      [⟨m.dst, m.src, ⟨some (Node.run initNode ms).1.id, m.body.id,
        Payload.ReadOk (broadcastValues (ms.map Prod.snd))⟩⟩] ∧
    ((∀ x ∈ ms.map Prod.snd, ∀ v, x.body.payload ≠ Payload.Broadcast v) →
      broadcastValues (ms.map Prod.snd) = []) := by
  constructor
  · have hm := run_messages initNode ms
    simp only [initNode, List.nil_append] at hm
    rcases m with ⟨src, dst, ⟨mid, irt, pl⟩⟩
    cases pl <;> simp_all [Node.step, initNode]
  · intro hnb
    rw [broadcastValues, List.filterMap_eq_nil_iff]
    intro x hx
    cases hpl : x.body.payload <;> simp [hpl]
    case Broadcast v => exact hnb x hx v hpl

/-- Witness for C3: broadcasting 10, 20, 10 then reading returns
`[10, 20, 10]` (spec scenario S4). -/
theorem broadcast_then_read_witness :
    ((Node.run initNode [(0, broadcastMsg 10), (0, broadcastMsg 20), (0, broadcastMsg 10)]).1.step
        0 readMsg).2 =
      [⟨readMsg.dst, readMsg.src,
        ⟨some (Node.run initNode
            [(0, broadcastMsg 10), (0, broadcastMsg 20), (0, broadcastMsg 10)]).1.id,
          readMsg.body.id,
          Payload.ReadOk (broadcastValues
            ([(0, broadcastMsg 10), (0, broadcastMsg 20),
              (0, broadcastMsg 10)].map Prod.snd))⟩⟩] ∧
    ((∀ x ∈ [(0, broadcastMsg 10), (0, broadcastMsg 20), (0, broadcastMsg 10)].map Prod.snd,
        ∀ v, x.body.payload ≠ Payload.Broadcast v) →
      broadcastValues ([(0, broadcastMsg 10), (0, broadcastMsg 20),
        (0, broadcastMsg 10)].map Prod.snd) = []) :=
  broadcast_then_read [(0, broadcastMsg 10), (0, broadcastMsg 20), (0, broadcastMsg 10)]
    0 readMsg (by decide)

/-- C6: a body whose `type` tag is not one of the twelve variant names fails
deserialization with an unknown-variant error, and the main loop stops at
the first failed line, returning the error — a non-zero process exit with a
diagnostic — rather than silently ignoring the line. -/
theorem unknown_type_is_fatal (t : String) (h : t ∉ payloadTypeNames)
    (e : String) (n : Node) (rest : List (Except String (Nat × Msg))) :
    deserializePayloadTag t = Except.error ("unknown variant " ++ t) ∧
    mainLoop n (Except.error e :: rest) = ([], Except.error e) := by
  exact ⟨by simp [deserializePayloadTag, h], rfl⟩

/-- Witness for C6: the tag "frobnicate" is rejected and the loop dies on
the resulting error line. -/
theorem unknown_type_is_fatal_witness :
    deserializePayloadTag "frobnicate" = Except.error ("unknown variant " ++ "frobnicate") ∧
    mainLoop initNode [Except.error "STDIN::Could not deserialize"] =
      ([], Except.error "STDIN::Could not deserialize") :=
  unknown_type_is_fatal "frobnicate" (by decide) "STDIN::Could not deserialize" initNode []

/-- Two naturals below `32 ^ 26` with the same 26 base-32 digits are equal. -/
lemma base32_digits_inj (u v : Nat) (hu : u < 32 ^ 26) (hv : v < 32 ^ 26)
    (h : ∀ i, i < 26 → u / 32 ^ (25 - i) % 32 = v / 32 ^ (25 - i) % 32) : u = v := by
  have key : ∀ m, m ≤ 26 → u / 32 ^ (26 - m) = v / 32 ^ (26 - m) := by
    intro m
    induction m with
    | zero =>
      intro _
      simp only [Nat.sub_zero]
      rw [Nat.div_eq_of_lt hu, Nat.div_eq_of_lt hv]
    | succ k ih =>
      intro hk
      have h1 := ih (Nat.le_of_succ_le hk)
      have hd := h k (by omega)
      have e2 : 26 - k = (25 - k) + 1 := by omega
      have e1 : 26 - (k + 1) = 25 - k := by omega
      have hu2 : u / 32 ^ (25 - k) / 32 = u / 32 ^ (26 - k) := by
        rw [Nat.div_div_eq_div_mul, ← Nat.pow_succ, Nat.succ_eq_add_one, ← e2]
      have hv2 : v / 32 ^ (25 - k) / 32 = v / 32 ^ (26 - k) := by
        rw [Nat.div_div_eq_div_mul, ← Nat.pow_succ, Nat.succ_eq_add_one, ← e2]
      have hu3 := Nat.div_add_mod (u / 32 ^ (25 - k)) 32
      have hv3 := Nat.div_add_mod (v / 32 ^ (25 - k)) 32
      rw [hu2] at hu3
      rw [hv2] at hv3
      rw [e1]
      omega
  have h26 := key 26 (Nat.le_refl 26)
  simpa using h26

/-- The 32 characters of the Crockford alphabet are pairwise distinct. -/
lemma crockford_getD_inj : ∀ a b : Fin 32,
    crockford.getD a.val 'Z' = crockford.getD b.val 'Z' → a = b := by decide

/-- `ulidToString` is injective on values below `32 ^ 26 = 2 ^ 130`. -/
lemma ulidToString_inj (u v : Nat) (hu : u < 32 ^ 26) (hv : v < 32 ^ 26)
    (h : ulidToString u = ulidToString v) : u = v := by
  have hdata : ((List.range 26).map (fun j => crockford.getD (u / 32 ^ (25 - j) % 32) 'Z')) =
      ((List.range 26).map (fun j => crockford.getD (v / 32 ^ (25 - j) % 32) 'Z')) :=
    congrArg String.data h
  apply base32_digits_inj u v hu hv
  intro i hi
  have hi1 : i < ((List.range 26).map
      (fun j => crockford.getD (u / 32 ^ (25 - j) % 32) 'Z')).length := by simp [hi]
  have hi2 : i < ((List.range 26).map
      (fun j => crockford.getD (v / 32 ^ (25 - j) % 32) 'Z')).length := by simp [hi]
  have hpt : ((List.range 26).map
      (fun j => crockford.getD (u / 32 ^ (25 - j) % 32) 'Z')).getD i 'A' =
      ((List.range 26).map
      (fun j => crockford.getD (v / 32 ^ (25 - j) % 32) 'Z')).getD i 'A' :=
    congrArg (fun l => l.getD i 'A') hdata
  rw [List.getD_eq_getElem _ _ hi1, List.getD_eq_getElem _ _ hi2] at hpt
  simp only [List.getElem_map, List.getElem_range] at hpt
  have hfin := crockford_getD_inj
    ⟨u / 32 ^ (25 - i) % 32, Nat.mod_lt _ (by norm_num)⟩
    ⟨v / 32 ^ (25 - i) % 32, Nat.mod_lt _ (by norm_num)⟩ hpt
  exact congrArg Fin.val hfin

/-- A rendered ulid has exactly 26 characters. -/
lemma ulidToString_length (u : Nat) : (ulidToString u).length = 26 := by
  simp [ulidToString, String.length]

/-- Every character of a rendered ulid lies in the Crockford alphabet. -/
lemma ulidToString_chars (u : Nat) : ∀ c ∈ (ulidToString u).data, c ∈ crockford := by
  intro c hc
  simp only [ulidToString, List.mem_map, List.mem_range] at hc
  obtain ⟨i, hi, rfl⟩ := hc
  by_cases hlt : (u / 32 ^ (25 - i) % 32) < crockford.length
  · rw [List.getD_eq_getElem _ _ hlt]
    exact List.getElem_mem _
  · rw [List.getD_eq_default _ _ (Nat.le_of_not_lt hlt)]
    decide

/-- In any run, the `generate_ok` ids are exactly the renderings of the
drawn ulid values, in arrival order. -/
lemma run_generatedIds (n : Node) (ms : List (Nat × Msg)) :
    generatedIds (Node.run n ms).2 = (generateDraws ms).map ulidToString := by
  induction ms generalizing n with
  | nil => simp [Node.run, generatedIds, generateDraws]
  | cons p rest ih =>
    rcases p with ⟨u, m⟩
    rcases m with ⟨src, dst, ⟨mid, irt, pl⟩⟩
    cases pl <;>
      simp_all [Node.run, Node.step, generatedIds, generateDraws, isGenerate,
        List.filter_cons]

/-- Pairwise-distinct draws below `2 ^ 128` render to pairwise-distinct
strings. -/
lemma pairwise_ne_map_ulidToString (l : List Nat) (hb : ∀ d ∈ l, d < 2 ^ 128)
    (h : l.Pairwise (fun a b => a ≠ b)) :
    (l.map ulidToString).Pairwise (fun a b => a ≠ b) := by
  have hbig : (2 : Nat) ^ 128 < 32 ^ 26 := by norm_num
  induction l with
  | nil => simp
  | cons d rest ih =>
    rw [List.pairwise_cons] at h
    rw [List.map_cons, List.pairwise_cons]
    refine ⟨?_, ih (fun x hx => hb x (List.mem_cons_of_mem _ hx)) h.2⟩
    intro s hs heq
    obtain ⟨b, hbmem, rfl⟩ := List.mem_map.1 hs
    have hdb : d = b := ulidToString_inj d b
      (lt_trans (hb d (List.mem_cons_self _ _)) hbig)
      (lt_trans (hb b (List.mem_cons_of_mem _ hbmem)) hbig) heq
    exact h.1 b hbmem hdb

/-- C1 (amended): in any run from the initial node whose drawn 128-bit ulid
values at the Generate steps are pairwise distinct, the id strings of the
`generate_ok` replies are pairwise distinct; and unconditionally each id is
the 26-character Crockford-base32 rendering of its step's 128-bit draw. -/
theorem generate_ids_distinct (ms : List (Nat × Msg))
    (hlt : ∀ p ∈ ms, p.1 < 2 ^ 128)
    (hdist : (generateDraws ms).Pairwise (fun a b => a ≠ b)) :
    (generatedIds (Node.run initNode ms).2).Pairwise (fun a b => a ≠ b) ∧
    generatedIds (Node.run initNode ms).2 = (generateDraws ms).map ulidToString ∧
    ∀ s ∈ generatedIds (Node.run initNode ms).2,
      s.length = 26 ∧ ∀ c ∈ s.data, c ∈ crockford := by
  have hb : ∀ d ∈ generateDraws ms, d < 2 ^ 128 := by
    intro d hd
    rw [generateDraws] at hd
    obtain ⟨p, hp, rfl⟩ := List.mem_map.1 hd
    exact hlt p (List.mem_of_mem_filter hp)
  refine ⟨?_, run_generatedIds initNode ms, ?_⟩
  · rw [run_generatedIds]
    exact pairwise_ne_map_ulidToString _ hb hdist
  · intro s hs
    rw [run_generatedIds] at hs
    obtain ⟨d, hd, rfl⟩ := List.mem_map.1 hs
    exact ⟨ulidToString_length d, ulidToString_chars d⟩

/-- Witness for C1: two generates with distinct draws 0 and 1 yield
distinct 26-character Crockford ids. -/
theorem generate_ids_distinct_witness :
    (generatedIds (Node.run initNode [(0, genMsg), (1, genMsg)]).2).Pairwise
      (fun a b => a ≠ b) ∧
    generatedIds (Node.run initNode [(0, genMsg), (1, genMsg)]).2 =
      (generateDraws [(0, genMsg), (1, genMsg)]).map ulidToString ∧
    ∀ s ∈ generatedIds (Node.run initNode [(0, genMsg), (1, genMsg)]).2,
      s.length = 26 ∧ ∀ c ∈ s.data, c ∈ crockford :=
  generate_ids_distinct [(0, genMsg), (1, genMsg)] (by decide) (by decide)

/-- Counterexample to C1 as stated: nothing in the code stops the ulid
source from drawing the same 128-bit value twice (fresh per-call randomness
may repeat within one millisecond), and when it does the two `generate_ok`
ids coincide, so the returned ids are not unconditionally pairwise
distinct. -/
theorem generate_ids_distinct_counterexample :
    ¬ (generatedIds (Node.run initNode [(0, genMsg), (0, genMsg)]).2).Pairwise
      (fun a b => a ≠ b) := by decide
